import Mathlib

/-! # Chrono time-steppers: the configuration state of `ChTimestepper.h`

A shallow embedding of the classes declared in
`src/chrono/timestepper/ChTimestepper.h`: the base `ChTimestepper`, the
second-order specialisation `ChTimestepperIIorder`, the implicit-iterative
capability `ChImplicitIterativeTimestepper` and the Newmark integrator
`ChTimestepperNewmark`.  Every member function whose body is in the header is
translated statement by statement into a function from object state to object
state.

Conventions.

* A C++ `double` is a value of `Double`: NaN, one of the two infinities, or a
  finite value, represented by the rational number it denotes (the two zeros
  are identified).  Comparisons follow IEEE 754: every comparison with NaN is
  false.  The member functions of the header only copy and compare doubles
  (they do no arithmetic), and both operations are exact.  The one addition in
  this file, the time update of `Advance`, belongs to a body that is not in the
  header; finite sums are taken exactly.  Equality in statements is identity of
  values, not the C++ operator `==`.
* A C++ `int` is represented by an integer; the embedded functions only copy
  ints.
* A pointer to an integrable system is an `Option`: `none` is `nullptr`.
* A `void` member function that assigns to members is a function returning the
  updated object.
-/

namespace chrono

/-- Values of the C++ type `double`: NaN, minus infinity, the finite values
(each the rational number it denotes) and plus infinity. -/
inductive Double where
  | nan
  | ninf
  | fin (q : ℚ)
  | pinf
  deriving DecidableEq

/-- Integer literals such as `0`, `1`, `6`. -/
instance (n : Nat) : OfNat Double n := ⟨Double.fin (n : ℚ)⟩

/-- Decimal literals such as `0.5`, `1e-4`, `1e30`, read as the rational they
write. -/
instance : OfScientific Double :=
  ⟨fun m s e => Double.fin (OfScientific.ofScientific m s e)⟩

/-- Unary minus. -/
def Double.neg : Double → Double
  | Double.nan => Double.nan
  | Double.ninf => Double.pinf
  | Double.fin q => Double.fin (-q)
  | Double.pinf => Double.ninf

instance : Neg Double := ⟨Double.neg⟩

/-- The C++ operator `<` on doubles: false as soon as one side is NaN. -/
def Double.lt : Double → Double → Prop
  | Double.fin a, Double.fin b => a < b
  | Double.ninf, Double.fin _ => True
  | Double.ninf, Double.pinf => True
  | Double.fin _, Double.pinf => True
  | _, _ => False

instance : LT Double := ⟨Double.lt⟩

instance (a b : Double) : Decidable (a < b) := by
  cases a <;> cases b <;>
    first
    | exact inferInstanceAs (Decidable ((_ : ℚ) < _))
    | exact inferInstanceAs (Decidable True)
    | exact inferInstanceAs (Decidable False)

/-- The C++ operator `<=` on doubles: false as soon as one side is NaN. -/
def Double.le : Double → Double → Prop
  | Double.fin a, Double.fin b => a ≤ b
  | Double.ninf, Double.ninf => True
  | Double.ninf, Double.fin _ => True
  | Double.ninf, Double.pinf => True
  | Double.fin _, Double.pinf => True
  | Double.pinf, Double.pinf => True
  | _, _ => False

instance : LE Double := ⟨Double.le⟩

instance (a b : Double) : Decidable (a ≤ b) := by
  cases a <;> cases b <;>
    first
    | exact inferInstanceAs (Decidable ((_ : ℚ) ≤ _))
    | exact inferInstanceAs (Decidable True)
    | exact inferInstanceAs (Decidable False)

/-- The C++ operator `+` on doubles, with the sum of two finite values taken
exactly (no rounding, no overflow); NaN propagates and the sum of opposite
infinities is NaN. -/
def Double.add : Double → Double → Double
  | Double.nan, _ => Double.nan
  | _, Double.nan => Double.nan
  | Double.fin a, Double.fin b => Double.fin (a + b)
  | Double.pinf, Double.ninf => Double.nan
  | Double.ninf, Double.pinf => Double.nan
  | Double.pinf, _ => Double.pinf
  | _, Double.pinf => Double.pinf
  | Double.ninf, _ => Double.ninf
  | _, Double.ninf => Double.ninf

instance : Add Double := ⟨Double.add⟩

/-! ## Collaborators declared outside the header -/

/-- Modelled from the spec: `ChIntegrable` / `ChIntegrableIIorder`
(`chrono/timestepper/ChIntegrable.h`) are not among the sources.  The spec's
Integrable System "reports position-coordinate count and velocity-coordinate
count (may differ)"; only these two counts are kept. -/
structure ChIntegrable where
  ncoords_x : Nat
  ncoords_v : Nat
  deriving DecidableEq

/-- Modelled from the spec: `ChVectorDynamic<>` (`chrono/core/ChVectorDynamic.h`)
is not among the sources.  The spec describes the multiplier vector as an
"ordered sequence of real numbers". -/
structure ChVectorDynamic where
  elems : List Double
  deriving DecidableEq

/-- Number of rows of a vector. -/
def ChVectorDynamic.GetRows (v : ChVectorDynamic) : Nat := v.elems.length

/-- Modelled from the spec: `ChVectorDynamic<>::Reset(nrows)` is not among the
sources; following the spec's "resets and re-dimensions", it discards the
content and leaves `nrows` zero entries, `nrows` being the argument written at
the call site. -/
def ChVectorDynamic.Reset (_v : ChVectorDynamic) (nrows : Nat) : ChVectorDynamic :=
  { elems := List.replicate nrows 0 }

/-- Modelled from the spec: `ChState` (`chrono/timestepper/ChState.h`) is not
among the sources.  The spec describes it as an "ordered sequence of real
numbers" (position-like); it also records the system it belongs to, which is
the second argument of `Reset`. -/
structure ChState where
  elems : List Double
  integrable : Option ChIntegrable
  deriving DecidableEq

/-- Number of rows of a state vector. -/
def ChState.GetRows (v : ChState) : Nat := v.elems.length

/-- Modelled from the spec: `ChState::Reset(nrows, integrable)` is not among
the sources; following the spec's "resets and re-dimensions", it discards the
content, leaves `nrows` zero entries and records the system, `nrows` being the
argument written at the call site. -/
def ChState.Reset (_v : ChState) (nrows : Nat) (mint : Option ChIntegrable) : ChState :=
  { elems := List.replicate nrows 0, integrable := mint }

/-- Modelled from the spec: `ChStateDelta` (`chrono/timestepper/ChState.h`) is
not among the sources.  The spec describes it as an "ordered sequence of real
numbers" (velocity / acceleration / increment). -/
structure ChStateDelta where
  elems : List Double
  integrable : Option ChIntegrable
  deriving DecidableEq

/-- Number of rows of a state-delta vector. -/
def ChStateDelta.GetRows (v : ChStateDelta) : Nat := v.elems.length

/-- Modelled from the spec: `ChStateDelta::Reset(nrows, integrable)` is not
among the sources; same reading as `ChState.Reset`. -/
def ChStateDelta.Reset (_v : ChStateDelta) (nrows : Nat) (mint : Option ChIntegrable) :
    ChStateDelta :=
  { elems := List.replicate nrows 0, integrable := mint }

/-! ## Archives

`ChArchiveOut` and `ChArchiveIn` (`chrono/serialization/ChArchive.h`) are not
among the sources.  A record is the ordered sequence of the values written,
version numbers included. -/

/-- One value of an archive record. -/
inductive ArchiveItem where
  | version (v : Int)
  | bool (b : Bool)
  | int (i : Int)
  | double (d : Double)
  deriving DecidableEq

/-- Modelled from the spec: an output archive is the sequence of values written
so far ("a versioned record of the scalar configuration fields"). -/
structure ChArchiveOut where
  items : List ArchiveItem
  deriving DecidableEq

/-- Modelled from the spec: `marchive.VersionWrite(v)` appends a version number. -/
def ChArchiveOut.VersionWrite (a : ChArchiveOut) (v : Int) : ChArchiveOut :=
  { items := a.items ++ [ArchiveItem.version v] }

/-- Modelled from the spec: `marchive << CHNVP(b)` for a `bool` member. -/
def ChArchiveOut.writeBool (a : ChArchiveOut) (b : Bool) : ChArchiveOut :=
  { items := a.items ++ [ArchiveItem.bool b] }

/-- Modelled from the spec: `marchive << CHNVP(i)` for an `int` member. -/
def ChArchiveOut.writeInt (a : ChArchiveOut) (i : Int) : ChArchiveOut :=
  { items := a.items ++ [ArchiveItem.int i] }

/-- Modelled from the spec: `marchive << CHNVP(d)` for a `double` member. -/
def ChArchiveOut.writeDouble (a : ChArchiveOut) (d : Double) : ChArchiveOut :=
  { items := a.items ++ [ArchiveItem.double d] }

/-- Modelled from the spec: an input archive is the sequence of values still to
be read. -/
structure ChArchiveIn where
  items : List ArchiveItem
  deriving DecidableEq

/-- Modelled from the spec: `marchive.VersionRead()` consumes a version number;
`none` when the next value is not one (the archive raises an error). -/
def ChArchiveIn.VersionRead (a : ChArchiveIn) : Option (Int × ChArchiveIn) :=
  match a.items with
  | ArchiveItem.version v :: rest => some (v, { items := rest })
  | _ => none

/-- Modelled from the spec: `marchive >> CHNVP(b)` for a `bool` member. -/
def ChArchiveIn.readBool (a : ChArchiveIn) : Option (Bool × ChArchiveIn) :=
  match a.items with
  | ArchiveItem.bool b :: rest => some (b, { items := rest })
  | _ => none

/-- Modelled from the spec: `marchive >> CHNVP(i)` for an `int` member. -/
def ChArchiveIn.readInt (a : ChArchiveIn) : Option (Int × ChArchiveIn) :=
  match a.items with
  | ArchiveItem.int i :: rest => some (i, { items := rest })
  | _ => none

/-- Modelled from the spec: `marchive >> CHNVP(d)` for a `double` member. -/
def ChArchiveIn.readDouble (a : ChArchiveIn) : Option (Double × ChArchiveIn) :=
  match a.items with
  | ArchiveItem.double d :: rest => some (d, { items := rest })
  | _ => none

/-- State of an `ArchiveIN` body between two statements: the object as updated
so far, the archive as consumed so far, and whether every read succeeded.
After a failed read (`ok = false`) no later statement runs, and the members
already assigned keep their new values. -/
structure ArchiveInResult (σ : Type) where
  obj : σ
  marchive : ChArchiveIn
  ok : Bool

/-- Entry of an `ArchiveIN` body. -/
def ArchiveInResult.start {σ : Type} (s : σ) (marchive : ChArchiveIn) : ArchiveInResult σ :=
  { obj := s, marchive := marchive, ok := true }

/-- One extraction statement `marchive >> member` (or `VersionRead`): read one
value with `read` and store it with `set`. -/
def ArchiveInResult.extract {σ α : Type} (r : ArchiveInResult σ)
    (read : ChArchiveIn → Option (α × ChArchiveIn)) (set : σ → α → σ) : ArchiveInResult σ :=
  if r.ok then
    match read r.marchive with
    | some (a, rest) => { obj := set r.obj a, marchive := rest, ok := true }
    | none => { obj := r.obj, marchive := r.marchive, ok := false }
  else r

/-- A call `Parent::ArchiveIN(marchive)` on the parent sub-object selected by
`get` / `put`. -/
def ArchiveInResult.parent {σ τ : Type} (r : ArchiveInResult σ) (get : σ → τ) (put : σ → τ → σ)
    (f : τ → ChArchiveIn → ArchiveInResult τ) : ArchiveInResult σ :=
  if r.ok then
    let q := f (get r.obj) r.marchive
    { obj := put r.obj q.obj, marchive := q.marchive, ok := q.ok }
  else r

/-! ## `ChTimestepper` -/

/-- Data members of `ChTimestepper`. -/
structure ChTimestepper where
  integrable : Option ChIntegrable
  T : Double
  L : ChVectorDynamic
  verbose : Bool
  Qc_do_clamp : Bool
  Qc_clamping : Double
  deriving DecidableEq

/-- Constructor `ChTimestepper::ChTimestepper(mintegrable)`. -/
def ChTimestepper.ctor (mintegrable : Option ChIntegrable) : ChTimestepper :=
  { integrable := mintegrable
    T := 0
    L := ChVectorDynamic.Reset { elems := [] } 0
    verbose := false
    Qc_do_clamp := false
    Qc_clamping := 1e30 }

/-- Accessor `get_L()`. -/
def ChTimestepper.get_L (s : ChTimestepper) : ChVectorDynamic := s.L

/-- Member `SetIntegrable` of the base class: `integrable = mintegrable;`. -/
def ChTimestepper.SetIntegrable (s : ChTimestepper) (mintegrable : Option ChIntegrable) :
    ChTimestepper :=
  { s with integrable := mintegrable }

/-- Accessor `GetIntegrable()`. -/
def ChTimestepper.GetIntegrable (s : ChTimestepper) : Option ChIntegrable := s.integrable

/-- Accessor `GetTime()`. -/
def ChTimestepper.GetTime (s : ChTimestepper) : Double := s.T

/-- Member `SetTime`: `T = mt;`. -/
def ChTimestepper.SetTime (s : ChTimestepper) (mt : Double) : ChTimestepper :=
  { s with T := mt }

/-- Member `SetVerbose`: `verbose = mverbose;`. -/
def ChTimestepper.SetVerbose (s : ChTimestepper) (mverbose : Bool) : ChTimestepper :=
  { s with verbose := mverbose }

/-- Member `SetQcDoClamp`: `Qc_do_clamp = mdc;`. -/
def ChTimestepper.SetQcDoClamp (s : ChTimestepper) (mdc : Bool) : ChTimestepper :=
  { s with Qc_do_clamp := mdc }

/-- Member `SetQcClamping`: `Qc_clamping = mcl;`. -/
def ChTimestepper.SetQcClamping (s : ChTimestepper) (mcl : Double) : ChTimestepper :=
  { s with Qc_clamping := mcl }

/-- Member `ArchiveOUT` of the base class; the object itself is not assigned. -/
def ChTimestepper.ArchiveOUT (s : ChTimestepper) (marchive : ChArchiveOut) : ChArchiveOut :=
  let marchive := marchive.VersionWrite 1
  let marchive := marchive.writeBool s.verbose
  let marchive := marchive.writeBool s.Qc_do_clamp
  marchive.writeDouble s.Qc_clamping

/-- Member `ArchiveIN` of the base class. -/
def ChTimestepper.ArchiveIN (s : ChTimestepper) (marchive : ChArchiveIn) :
    ArchiveInResult ChTimestepper :=
  let r := ArchiveInResult.start s marchive
  let r := r.extract ChArchiveIn.VersionRead (fun s _version => s)
  let r := r.extract ChArchiveIn.readBool (fun s b => { s with verbose := b })
  let r := r.extract ChArchiveIn.readBool (fun s b => { s with Qc_do_clamp := b })
  r.extract ChArchiveIn.readDouble (fun s d => { s with Qc_clamping := d })

/-! ## `ChTimestepperIIorder` -/

/-- Data members of `ChTimestepperIIorder`: the base sub-object and `X`, `V`, `A`. -/
structure ChTimestepperIIorder extends ChTimestepper where
  X : ChState
  V : ChStateDelta
  A : ChStateDelta
  deriving DecidableEq

/-- Member `SetIntegrable` of the second-order class. -/
def ChTimestepperIIorder.SetIntegrable (s : ChTimestepperIIorder)
    (mintegrable : Option ChIntegrable) : ChTimestepperIIorder :=
  let s := { s with toChTimestepper := s.toChTimestepper.SetIntegrable mintegrable }
  let s := { s with X := s.X.Reset 1 mintegrable }
  let s := { s with V := s.V.Reset 1 mintegrable }
  { s with A := s.A.Reset 1 mintegrable }

/-- Constructor `ChTimestepperIIorder::ChTimestepperIIorder(mintegrable)`: the
base constructor, then `SetIntegrable(mintegrable)`.  The members `X`, `V`, `A`
are default-constructed before the body runs; their default content is
overwritten by the `Reset` calls and is taken to be empty here. -/
def ChTimestepperIIorder.ctor (mintegrable : Option ChIntegrable) : ChTimestepperIIorder :=
  let s : ChTimestepperIIorder :=
    { toChTimestepper := ChTimestepper.ctor mintegrable
      X := { elems := [], integrable := none }
      V := { elems := [], integrable := none }
      A := { elems := [], integrable := none } }
  s.SetIntegrable mintegrable

/-- Accessor `get_X()`. -/
def ChTimestepperIIorder.get_X (s : ChTimestepperIIorder) : ChState := s.X

/-- Accessor `get_V()`. -/
def ChTimestepperIIorder.get_V (s : ChTimestepperIIorder) : ChStateDelta := s.V

/-- Accessor `get_A()`. -/
def ChTimestepperIIorder.get_A (s : ChTimestepperIIorder) : ChStateDelta := s.A

/-! ## `ChImplicitIterativeTimestepper` -/

/-- Data members of `ChImplicitIterativeTimestepper`. -/
structure ChImplicitIterativeTimestepper where
  maxiters : Int
  reltol : Double
  abstolS : Double
  abstolL : Double
  numiters : Int
  numsetups : Int
  numsolves : Int
  deriving DecidableEq

/-- Constructor `ChImplicitIterativeTimestepper::ChImplicitIterativeTimestepper()`. -/
def ChImplicitIterativeTimestepper.ctor : ChImplicitIterativeTimestepper :=
  { maxiters := 6
    reltol := 1e-4
    abstolS := 1e-10
    abstolL := 1e-10
    numiters := 0
    numsetups := 0
    numsolves := 0 }

/-- Member `SetMaxiters`: `maxiters = miters;`. -/
def ChImplicitIterativeTimestepper.SetMaxiters (s : ChImplicitIterativeTimestepper)
    (miters : Int) : ChImplicitIterativeTimestepper :=
  { s with maxiters := miters }

/-- Accessor `GetMaxiters()`, declared to return `double`. -/
def ChImplicitIterativeTimestepper.GetMaxiters (s : ChImplicitIterativeTimestepper) : Double :=
  Double.fin (s.maxiters : ℚ)

/-- Member `SetRelTolerance`: `reltol = rel_tol;`. -/
def ChImplicitIterativeTimestepper.SetRelTolerance (s : ChImplicitIterativeTimestepper)
    (rel_tol : Double) : ChImplicitIterativeTimestepper :=
  { s with reltol := rel_tol }

/-- Member `SetAbsTolerances(abs_tolS, abs_tolL)`, the two-argument overload. -/
def ChImplicitIterativeTimestepper.SetAbsTolerances (s : ChImplicitIterativeTimestepper)
    (abs_tolS abs_tolL : Double) : ChImplicitIterativeTimestepper :=
  let s := { s with abstolS := abs_tolS }
  { s with abstolL := abs_tolL }

/-- Member `SetAbsTolerances(abs_tol)`, the one-argument overload. -/
def ChImplicitIterativeTimestepper.SetAbsTolerances1 (s : ChImplicitIterativeTimestepper)
    (abs_tol : Double) : ChImplicitIterativeTimestepper :=
  let s := { s with abstolS := abs_tol }
  { s with abstolL := abs_tol }

/-- Accessor `GetNumIterations()`. -/
def ChImplicitIterativeTimestepper.GetNumIterations (s : ChImplicitIterativeTimestepper) : Int :=
  s.numiters

/-- Accessor `GetNumSetupCalls()`. -/
def ChImplicitIterativeTimestepper.GetNumSetupCalls (s : ChImplicitIterativeTimestepper) : Int :=
  s.numsetups

/-- Accessor `GetNumSolveCalls()`. -/
def ChImplicitIterativeTimestepper.GetNumSolveCalls (s : ChImplicitIterativeTimestepper) : Int :=
  s.numsolves

/-- Member `ArchiveOUT` of the implicit-iterative class; the object itself is
not assigned. -/
def ChImplicitIterativeTimestepper.ArchiveOUT (s : ChImplicitIterativeTimestepper)
    (marchive : ChArchiveOut) : ChArchiveOut :=
  let marchive := marchive.VersionWrite 1
  let marchive := marchive.writeInt s.maxiters
  let marchive := marchive.writeDouble s.reltol
  let marchive := marchive.writeDouble s.abstolS
  marchive.writeDouble s.abstolL

/-- Member `ArchiveIN` of the implicit-iterative class. -/
def ChImplicitIterativeTimestepper.ArchiveIN (s : ChImplicitIterativeTimestepper)
    (marchive : ChArchiveIn) : ArchiveInResult ChImplicitIterativeTimestepper :=
  let r := ArchiveInResult.start s marchive
  let r := r.extract ChArchiveIn.VersionRead (fun s _version => s)
  let r := r.extract ChArchiveIn.readInt (fun s i => { s with maxiters := i })
  let r := r.extract ChArchiveIn.readDouble (fun s d => { s with reltol := d })
  let r := r.extract ChArchiveIn.readDouble (fun s d => { s with abstolS := d })
  r.extract ChArchiveIn.readDouble (fun s d => { s with abstolL := d })

/-! ## `ChTimestepperNewmark` -/

/-- Data members of `ChTimestepperNewmark` that the header's member functions
read or assign: the two parent sub-objects, `gamma` and `beta`.  The work
vectors `Da`, `Dl`, `Xnew`, `Vnew`, `Anew`, `R`, `Rold`, `Qc` are touched only
by `Advance`, whose body is not in the header. -/
structure ChTimestepperNewmark extends ChTimestepperIIorder, ChImplicitIterativeTimestepper where
  gamma : Double
  beta : Double
  deriving DecidableEq

/-- Member `SetGammaBeta`, statement by statement. -/
def ChTimestepperNewmark.SetGammaBeta (s : ChTimestepperNewmark) (mgamma mbeta : Double) :
    ChTimestepperNewmark :=
  let s := { s with gamma := mgamma }
  let s := if s.gamma < 0.5 then { s with gamma := 0.5 } else s
  let s := if s.gamma > 1 then { s with gamma := 1 } else s
  let s := { s with beta := mbeta }
  let s := if s.beta < 0 then { s with beta := 0 } else s
  let s := if s.beta > 1 then { s with beta := 1 } else s
  s

/-- Accessor `GetGamma()`. -/
def ChTimestepperNewmark.GetGamma (s : ChTimestepperNewmark) : Double := s.gamma

/-- Accessor `GetBeta()`. -/
def ChTimestepperNewmark.GetBeta (s : ChTimestepperNewmark) : Double := s.beta

/-- Constructor `ChTimestepperNewmark::ChTimestepperNewmark(mintegrable)`: the
two parent constructors, then `SetGammaBeta(0.6, 0.3)`.  `gamma` and `beta`
have no initialiser; `SetGammaBeta` assigns both before reading either, so the
placeholder `0` used for them here is never observed. -/
def ChTimestepperNewmark.ctor (mintegrable : Option ChIntegrable) : ChTimestepperNewmark :=
  let s : ChTimestepperNewmark :=
    { toChTimestepperIIorder := ChTimestepperIIorder.ctor mintegrable
      toChImplicitIterativeTimestepper := ChImplicitIterativeTimestepper.ctor
      gamma := 0
      beta := 0 }
  s.SetGammaBeta 0.6 0.3

/-- Member `ArchiveOUT` of the Newmark class; `ChTimestepperIIorder` inherits
`ArchiveOUT` from `ChTimestepper`. -/
def ChTimestepperNewmark.ArchiveOUT (s : ChTimestepperNewmark) (marchive : ChArchiveOut) :
    ChArchiveOut :=
  let marchive := marchive.VersionWrite 1
  let marchive := s.toChTimestepper.ArchiveOUT marchive
  let marchive := s.toChImplicitIterativeTimestepper.ArchiveOUT marchive
  let marchive := marchive.writeDouble s.beta
  marchive.writeDouble s.gamma

/-- Member `ArchiveIN` of the Newmark class; `ChTimestepperIIorder` inherits
`ArchiveIN` from `ChTimestepper`. -/
def ChTimestepperNewmark.ArchiveIN (s : ChTimestepperNewmark) (marchive : ChArchiveIn) :
    ArchiveInResult ChTimestepperNewmark :=
  let r := ArchiveInResult.start s marchive
  let r := r.extract ChArchiveIn.VersionRead (fun s _version => s)
  let r := r.parent (fun s => s.toChTimestepper)
    (fun s p => { s with toChTimestepper := p }) ChTimestepper.ArchiveIN
  let r := r.parent (fun s => s.toChImplicitIterativeTimestepper)
    (fun s p => { s with toChImplicitIterativeTimestepper := p })
    ChImplicitIterativeTimestepper.ArchiveIN
  let r := r.extract ChArchiveIn.readDouble (fun s d => { s with beta := d })
  r.extract ChArchiveIn.readDouble (fun s d => { s with gamma := d })

/-! ## `Advance` -/

/-- The concrete timestepper classes of the header; each of them declares
`Advance`. -/
inductive ChTimestepperVariant where
  | EulerExpl
  | EulerExplIIorder
  | EulerSemiImplicit
  | RungeKuttaExpl
  | Heun
  | Leapfrog
  | EulerImplicit
  | EulerImplicitLinearized
  | EulerImplicitProjected
  | Trapezoidal
  | TrapezoidalLinearized
  | TrapezoidalLinearized2
  | Newmark
  deriving DecidableEq

/-- Modelled from the spec: the bodies of `Advance` (`ChTimestepper.cpp`) are
not among the sources; the header only declares the function, once per
concrete class.  The spec says of every variant that `Advance` "mutates owned
state and advances `T` by `dt` on success; no defined behavior is specified for
`dt ≤ 0`", and that a step before a system is attached is undefined.  The
model keeps the effect on the base sub-object: `T` becomes `T + dt` (the
addition taken exactly) and `L` becomes `L_new`, which stands for the
multipliers the step computes from the external system; `none` stands for the
two undefined cases. -/
def ChTimestepper.Advance (_variant : ChTimestepperVariant) (s : ChTimestepper) (dt : Double)
    (L_new : ChVectorDynamic) : Option ChTimestepper :=
  if s.integrable.isSome ∧ 0 < dt then
    some { s with T := s.T + dt, L := L_new }
  else none

/-! ## Operations as data

The member functions, reified so that calls and sequences of calls can be
quantified over. -/

/-- A call of a public member function of `ChTimestepper` that can assign to
the object or that touches an archive: the functions whose bodies are in the
header, and `Advance`. -/
inductive ChTimestepper.Op where
  | Advance (variant : ChTimestepperVariant) (dt : Double) (L_new : ChVectorDynamic)
  | SetIntegrable (mintegrable : Option ChIntegrable)
  | SetTime (mt : Double)
  | SetVerbose (mverbose : Bool)
  | SetQcDoClamp (mdc : Bool)
  | SetQcClamping (mcl : Double)
  | ArchiveOUT (marchive : ChArchiveOut)
  | ArchiveIN (marchive : ChArchiveIn)

/-- The object after a call; `none` where `Advance` is undefined. -/
def ChTimestepper.Op.apply (op : ChTimestepper.Op) (s : ChTimestepper) : Option ChTimestepper :=
  match op with
  | Advance variant dt L_new => s.Advance variant dt L_new
  | SetIntegrable mintegrable => some (s.SetIntegrable mintegrable)
  | SetTime mt => some (s.SetTime mt)
  | SetVerbose mverbose => some (s.SetVerbose mverbose)
  | SetQcDoClamp mdc => some (s.SetQcDoClamp mdc)
  | SetQcClamping mcl => some (s.SetQcClamping mcl)
  | ArchiveOUT _ => some s
  | ArchiveIN marchive => some (s.ArchiveIN marchive).obj

/-- The time an operation is expected to leave, given the time `T` before it:
the argument of `SetTime`, `T + dt` for `Advance`, and `T` itself for every
other operation. -/
def ChTimestepper.Op.timeAfter (op : ChTimestepper.Op) (T : Double) : Double :=
  match op with
  | Advance _ dt _ => T + dt
  | SetTime mt => mt
  | _ => T

/-- The proviso under which an operation cannot take the time backwards: for
`SetTime(mt)`, `mt` is greater than or equal to the current time; for
`Advance(dt)`, a system is attached, `dt > 0` and the new time is not NaN; for
every other operation, the current time is not NaN. -/
def ChTimestepper.Op.Proviso (op : ChTimestepper.Op) (s : ChTimestepper) : Prop :=
  match op with
  | Advance _ dt _ => s.GetIntegrable.isSome = true ∧ 0 < dt ∧ s.GetTime + dt ≠ Double.nan
  | SetTime mt => s.GetTime ≤ mt
  | _ => s.GetTime ≠ Double.nan

/-- A call of a member function of `ChImplicitIterativeTimestepper` that can
assign to the object or that touches an archive. -/
inductive ChImplicitIterativeTimestepper.Op where
  | SetMaxiters (miters : Int)
  | SetRelTolerance (rel_tol : Double)
  | SetAbsTolerances (abs_tolS abs_tolL : Double)
  | SetAbsTolerances1 (abs_tol : Double)
  | ArchiveOUT (marchive : ChArchiveOut)
  | ArchiveIN (marchive : ChArchiveIn)

/-- The object after a call. -/
def ChImplicitIterativeTimestepper.Op.apply (op : ChImplicitIterativeTimestepper.Op)
    (s : ChImplicitIterativeTimestepper) : ChImplicitIterativeTimestepper :=
  match op with
  | SetMaxiters miters => s.SetMaxiters miters
  | SetRelTolerance rel_tol => s.SetRelTolerance rel_tol
  | SetAbsTolerances abs_tolS abs_tolL => s.SetAbsTolerances abs_tolS abs_tolL
  | SetAbsTolerances1 abs_tol => s.SetAbsTolerances1 abs_tol
  | ArchiveOUT _ => s
  | ArchiveIN marchive => (s.ArchiveIN marchive).obj

/-- A call on a `ChTimestepperNewmark`: its own `SetGammaBeta` and `ArchiveIN`,
and the configuration setters inherited from its two parents. -/
inductive ChTimestepperNewmark.Op where
  | SetGammaBeta (mgamma mbeta : Double)
  | SetIntegrable (mintegrable : Option ChIntegrable)
  | SetTime (mt : Double)
  | SetVerbose (mverbose : Bool)
  | SetQcDoClamp (mdc : Bool)
  | SetQcClamping (mcl : Double)
  | SetMaxiters (miters : Int)
  | SetRelTolerance (rel_tol : Double)
  | SetAbsTolerances (abs_tolS abs_tolL : Double)
  | SetAbsTolerances1 (abs_tol : Double)
  | ArchiveIN (marchive : ChArchiveIn)

/-- The object after a call. -/
def ChTimestepperNewmark.Op.apply (op : ChTimestepperNewmark.Op) (s : ChTimestepperNewmark) :
    ChTimestepperNewmark :=
  match op with
  | SetGammaBeta mgamma mbeta => s.SetGammaBeta mgamma mbeta
  | SetIntegrable mintegrable =>
      { s with toChTimestepperIIorder := s.toChTimestepperIIorder.SetIntegrable mintegrable }
  | SetTime mt => { s with toChTimestepper := s.toChTimestepper.SetTime mt }
  | SetVerbose mverbose => { s with toChTimestepper := s.toChTimestepper.SetVerbose mverbose }
  | SetQcDoClamp mdc => { s with toChTimestepper := s.toChTimestepper.SetQcDoClamp mdc }
  | SetQcClamping mcl => { s with toChTimestepper := s.toChTimestepper.SetQcClamping mcl }
  | SetMaxiters miters =>
      { s with toChImplicitIterativeTimestepper :=
                 s.toChImplicitIterativeTimestepper.SetMaxiters miters }
  | SetRelTolerance rel_tol =>
      { s with toChImplicitIterativeTimestepper :=
                 s.toChImplicitIterativeTimestepper.SetRelTolerance rel_tol }
  | SetAbsTolerances abs_tolS abs_tolL =>
      { s with toChImplicitIterativeTimestepper :=
                 s.toChImplicitIterativeTimestepper.SetAbsTolerances abs_tolS abs_tolL }
  | SetAbsTolerances1 abs_tol =>
      { s with toChImplicitIterativeTimestepper :=
                 s.toChImplicitIterativeTimestepper.SetAbsTolerances1 abs_tol }
  | ArchiveIN marchive => (s.ArchiveIN marchive).obj

/-- The object after a sequence of calls, first call first. -/
def ChTimestepperNewmark.run (ops : List ChTimestepperNewmark.Op) (s : ChTimestepperNewmark) :
    ChTimestepperNewmark :=
  ops.foldl (fun s op => op.apply s) s

/-- The documented parameter range: `gamma` in `[1/2, 1]` and `beta` in `[0, 1]`. -/
def ChTimestepperNewmark.InRange (s : ChTimestepperNewmark) : Prop :=
  (0.5 ≤ s.GetGamma ∧ s.GetGamma ≤ 1) ∧ (0 ≤ s.GetBeta ∧ s.GetBeta ≤ 1)

instance (s : ChTimestepperNewmark) : Decidable s.InRange := by
  unfold ChTimestepperNewmark.InRange; infer_instance

/-- The record does not carry an out-of-range Newmark parameter: the values at
the positions `ChTimestepperNewmark::ArchiveIN` reads `beta` (the eleventh) and
`gamma` (the twelfth) from, when they are doubles, lie in range. -/
def ChArchiveIn.NewmarkInRange (a : ChArchiveIn) : Prop :=
  (∀ b : Double, a.items[10]? = some (ArchiveItem.double b) → 0 ≤ b ∧ b ≤ 1) ∧
  (∀ g : Double, a.items[11]? = some (ArchiveItem.double g) → 0.5 ≤ g ∧ g ≤ 1)

/-- Calls that cannot bring a value outside the parameter range into `gamma` or
`beta`: `SetGammaBeta` with arguments that are not NaN, `ArchiveIN` from a
record that carries no out-of-range parameter, and every inherited setter. -/
def ChTimestepperNewmark.Op.Admissible (op : ChTimestepperNewmark.Op) : Prop :=
  match op with
  | SetGammaBeta mgamma mbeta => mgamma ≠ Double.nan ∧ mbeta ≠ Double.nan
  | ArchiveIN marchive => marchive.NewmarkInRange
  | _ => True

/-- The object after a sequence of `SetIntegrable` calls, first call first. -/
def ChTimestepperIIorder.attach (ms : List (Option ChIntegrable)) (s : ChTimestepperIIorder) :
    ChTimestepperIIorder :=
  ms.foldl (fun s m => s.SetIntegrable m) s

/-- The record written by `s.ArchiveOUT` into an empty archive, read back with
`t.ArchiveIN`. -/
def ChTimestepperNewmark.ArchiveRoundTrip (s t : ChTimestepperNewmark) :
    ArchiveInResult ChTimestepperNewmark :=
  t.ArchiveIN { items := (s.ArchiveOUT { items := [] }).items }

/-! ## Doubles: unfolding literals and comparisons -/

/-- The operator `<` is `Double.lt`. -/
theorem Double.lt_def (a b : Double) : (a < b) = Double.lt a b := rfl

/-- The operator `≤` is `Double.le`. -/
theorem Double.le_def (a b : Double) : (a ≤ b) = Double.le a b := rfl

/-- The operator `+` is `Double.add`. -/
theorem Double.add_def (a b : Double) : a + b = Double.add a b := rfl

/-- An integer literal is the finite value it writes. -/
theorem Double.ofNat_eq (n : ℕ) : (OfNat.ofNat n : Double) = Double.fin (n : ℚ) := rfl

/-- A decimal literal is the finite value it writes. -/
theorem Double.ofScientific_eq (m : ℕ) (s : Bool) (e : ℕ) :
    (OfScientific.ofScientific m s e : Double)
      = Double.fin (OfScientific.ofScientific m s e) := rfl

/-- Minus a finite value. -/
theorem Double.neg_fin (q : ℚ) : -Double.fin q = Double.fin (-q) := rfl

/-- The operator `>` is `Double.lt` with the sides exchanged. -/
theorem Double.gt_def (a b : Double) : (a > b) = Double.lt b a := rfl

/-- A value other than NaN compares less than or equal to itself. -/
theorem Double.le_self_of_ne_nan (x : Double) (h : x ≠ Double.nan) : x ≤ x := by
  cases x <;> simp_all [Double.le_def, Double.le]

/-- Adding a positive value does not take a value down, unless the sum is NaN. -/
theorem Double.le_add_of_pos (x d : Double) (hd : 0 < d) (hsum : x + d ≠ Double.nan) :
    x ≤ x + d := by
  cases x <;> cases d <;>
    simp_all [Double.le_def, Double.le, Double.lt_def, Double.lt, Double.add_def, Double.add,
      Double.ofNat_eq]
  linarith

/-! ## Construction and the Newmark parameters -/

/-- C1: after `SetGammaBeta(mgamma, mbeta)` the value of `GetGamma()` is
`mgamma` clamped into `[0.5, 1]` (0.5 below the range, 1 above it, `mgamma`
inside), and it is the same for every other `mbeta` and every other object the
call is made on. -/
theorem SetGammaBeta_GetGamma_clamped (s : ChTimestepperNewmark) (mgamma mbeta : Double) :
    (s.SetGammaBeta mgamma mbeta).GetGamma
        = (if mgamma < 0.5 then 0.5 else if mgamma > 1 then 1 else mgamma)
      ∧ ∀ (s2 : ChTimestepperNewmark) (mbeta2 : Double),
          (s2.SetGammaBeta mgamma mbeta2).GetGamma = (s.SetGammaBeta mgamma mbeta).GetGamma := by
  have key : ∀ (t : ChTimestepperNewmark) (b : Double),
      (t.SetGammaBeta mgamma b).GetGamma
        = (if mgamma < 0.5 then 0.5 else if mgamma > 1 then 1 else mgamma) := by
    intro t b
    simp only [ChTimestepperNewmark.SetGammaBeta, ChTimestepperNewmark.GetGamma]
    cases mgamma <;> cases b <;>
      simp [Double.lt_def, Double.gt_def, Double.lt, Double.ofNat_eq, Double.ofScientific_eq] <;>
      split_ifs <;> simp_all <;> norm_num at *
  exact ⟨key s mbeta, fun s2 mbeta2 => (key s2 mbeta2).trans (key s mbeta).symm⟩

/-- C2: after `SetGammaBeta(mgamma, mbeta)` the value of `GetBeta()` is `mbeta`
clamped into `[0, 1]` (0 below the range, 1 above it, `mbeta` inside), and it
is the same for every other `mgamma` and every other object the call is made
on.  The call always yields an object: an out-of-range input is stored as the
nearest bound, never refused. -/
theorem SetGammaBeta_GetBeta_clamped (s : ChTimestepperNewmark) (mgamma mbeta : Double) :
    (s.SetGammaBeta mgamma mbeta).GetBeta
        = (if mbeta < 0 then 0 else if mbeta > 1 then 1 else mbeta)
      ∧ ∀ (s2 : ChTimestepperNewmark) (mgamma2 : Double),
          (s2.SetGammaBeta mgamma2 mbeta).GetBeta = (s.SetGammaBeta mgamma mbeta).GetBeta := by
  have key : ∀ (t : ChTimestepperNewmark) (g : Double),
      (t.SetGammaBeta g mbeta).GetBeta
        = (if mbeta < 0 then 0 else if mbeta > 1 then 1 else mbeta) := by
    intro t g
    simp only [ChTimestepperNewmark.SetGammaBeta, ChTimestepperNewmark.GetBeta]
    cases mbeta <;> cases g <;>
      simp [Double.lt_def, Double.gt_def, Double.lt, Double.ofNat_eq, Double.ofScientific_eq] <;>
      split_ifs <;> simp_all <;> norm_num at *
  exact ⟨key s mgamma, fun s2 mgamma2 => (key s2 mgamma2).trans (key s mgamma).symm⟩

/-- C4: a freshly constructed `ChTimestepperNewmark` has `GetGamma() = 0.6` and
`GetBeta() = 0.3`: both defaults lie inside the valid ranges, so the clamping
of `SetGammaBeta` leaves them as written. -/
theorem ctor_GetGamma_GetBeta (mintegrable : Option ChIntegrable) :
    (ChTimestepperNewmark.ctor mintegrable).GetGamma = 0.6
      ∧ (ChTimestepperNewmark.ctor mintegrable).GetBeta = 0.3
      ∧ (ChTimestepperNewmark.ctor mintegrable).InRange := by
  have hg : (ChTimestepperNewmark.ctor mintegrable).GetGamma = 0.6 := by
    simp only [ChTimestepperNewmark.ctor, ChTimestepperNewmark.SetGammaBeta,
      ChTimestepperNewmark.GetGamma, Double.lt_def, Double.gt_def, Double.lt,
      Double.ofNat_eq, Double.ofScientific_eq]
    norm_num
  have hb : (ChTimestepperNewmark.ctor mintegrable).GetBeta = 0.3 := by
    simp only [ChTimestepperNewmark.ctor, ChTimestepperNewmark.SetGammaBeta,
      ChTimestepperNewmark.GetBeta, Double.lt_def, Double.gt_def, Double.lt,
      Double.ofNat_eq, Double.ofScientific_eq]
    norm_num
  refine ⟨hg, hb, ?_⟩
  unfold ChTimestepperNewmark.InRange
  rw [hg, hb]
  simp only [Double.le_def, Double.le, Double.ofNat_eq, Double.ofScientific_eq]
  norm_num

/-- C5: a freshly constructed `ChImplicitIterativeTimestepper` has
`maxiters = 6`, `reltol = 1e-4`, `abstolS = 1e-10`, `abstolL = 1e-10`, and the
three counters `GetNumIterations()`, `GetNumSetupCalls()`, `GetNumSolveCalls()`
equal to 0. -/
theorem ctor_implicit_defaults :
    ChImplicitIterativeTimestepper.ctor.maxiters = 6
      ∧ ChImplicitIterativeTimestepper.ctor.GetMaxiters = 6
      ∧ ChImplicitIterativeTimestepper.ctor.reltol = 1e-4
      ∧ ChImplicitIterativeTimestepper.ctor.abstolS = 1e-10
      ∧ ChImplicitIterativeTimestepper.ctor.abstolL = 1e-10
      ∧ ChImplicitIterativeTimestepper.ctor.GetNumIterations = 0
      ∧ ChImplicitIterativeTimestepper.ctor.GetNumSetupCalls = 0
      ∧ ChImplicitIterativeTimestepper.ctor.GetNumSolveCalls = 0 := by
  simp [ChImplicitIterativeTimestepper.ctor, ChImplicitIterativeTimestepper.GetMaxiters,
    ChImplicitIterativeTimestepper.GetNumIterations,
    ChImplicitIterativeTimestepper.GetNumSetupCalls,
    ChImplicitIterativeTimestepper.GetNumSolveCalls, Double.ofNat_eq]

/-! ## Attaching a system -/

/-- What `ChTimestepperIIorder::SetIntegrable` assigns, member by member. -/
theorem ChTimestepperIIorder.SetIntegrable_eq (s : ChTimestepperIIorder)
    (mintegrable : Option ChIntegrable) :
    s.SetIntegrable mintegrable =
      { integrable := mintegrable, T := s.T, L := s.L, verbose := s.verbose,
        Qc_do_clamp := s.Qc_do_clamp, Qc_clamping := s.Qc_clamping,
        X := s.X.Reset 1 mintegrable, V := s.V.Reset 1 mintegrable,
        A := s.A.Reset 1 mintegrable } := rfl

/-- C6, the claim as stated fails: attaching a system with 7 position and 6
velocity coordinates leaves `X`, `V` and `A` with one row each, not with 7, 6
and 6 rows. -/
theorem SetIntegrable_dims_counterexample :
    ((ChTimestepperIIorder.ctor none).SetIntegrable
        (some { ncoords_x := 7, ncoords_v := 6 })).get_X.GetRows = 1
      ∧ ¬ (((ChTimestepperIIorder.ctor none).SetIntegrable
              (some { ncoords_x := 7, ncoords_v := 6 })).get_X.GetRows = 7
          ∧ ((ChTimestepperIIorder.ctor none).SetIntegrable
              (some { ncoords_x := 7, ncoords_v := 6 })).get_V.GetRows = 6
          ∧ ((ChTimestepperIIorder.ctor none).SetIntegrable
              (some { ncoords_x := 7, ncoords_v := 6 })).get_A.GetRows = 6) := by
  decide

/-- C6, amended: for every system and every prior state, after
`ChTimestepperIIorder::SetIntegrable` the vectors `X`, `V` and `A` are each
`Reset(1, system)`: they have one row and are bound to the new system, whatever
its coordinate counts; the three dimensions agree with the system's counts
exactly when both counts are 1. -/
theorem SetIntegrable_dims (s : ChTimestepperIIorder) (sys : ChIntegrable) :
    (s.SetIntegrable (some sys)).get_X = s.X.Reset 1 (some sys)
      ∧ (s.SetIntegrable (some sys)).get_V = s.V.Reset 1 (some sys)
      ∧ (s.SetIntegrable (some sys)).get_A = s.A.Reset 1 (some sys)
      ∧ (s.SetIntegrable (some sys)).get_X.GetRows = 1
      ∧ (s.SetIntegrable (some sys)).get_V.GetRows = 1
      ∧ (s.SetIntegrable (some sys)).get_A.GetRows = 1
      ∧ (((s.SetIntegrable (some sys)).get_X.GetRows = sys.ncoords_x
            ∧ (s.SetIntegrable (some sys)).get_V.GetRows = sys.ncoords_v
            ∧ (s.SetIntegrable (some sys)).get_A.GetRows = sys.ncoords_v)
          ↔ (sys.ncoords_x = 1 ∧ sys.ncoords_v = 1)) := by
  simp only [ChTimestepperIIorder.SetIntegrable_eq, ChTimestepperIIorder.get_X,
    ChTimestepperIIorder.get_V, ChTimestepperIIorder.get_A, ChState.GetRows,
    ChStateDelta.GetRows, ChState.Reset, ChStateDelta.Reset, List.length_replicate]
  refine ⟨trivial, trivial, trivial, trivial, trivial, trivial, ?_⟩
  constructor
  · rintro ⟨hx, hv, _⟩
    exact ⟨hx.symm, hv.symm⟩
  · rintro ⟨hx, hv⟩
    exact ⟨hx.symm, hv.symm, hv.symm⟩

/-- C7, the claim as stated fails: a second-order timestepper whose multiplier
vector holds `[5, 3]` still holds `[5, 3]` after `SetIntegrable`; the vector is
not reset to zeros. -/
theorem SetIntegrable_L_counterexample :
    (ChTimestepperIIorder.SetIntegrable
        { ChTimestepperIIorder.ctor none with L := { elems := [5, 3] } }
        (some { ncoords_x := 7, ncoords_v := 6 })).get_L = { elems := [5, 3] }
      ∧ ¬ ((ChTimestepperIIorder.SetIntegrable
              { ChTimestepperIIorder.ctor none with L := { elems := [5, 3] } }
              (some { ncoords_x := 7, ncoords_v := 6 })).get_L
            = ChVectorDynamic.Reset { elems := [5, 3] } 2) := by
  constructor
  · rfl
  · simp [ChTimestepperIIorder.SetIntegrable_eq, ChTimestepper.get_L, ChVectorDynamic.Reset,
      Double.ofNat_eq]

/-- C7, amended: `SetIntegrable` on a second-order timestepper resets `X`, `V`
and `A`, whatever they held before, and records the new system; the multiplier
vector `L` owned by the base class is left exactly as it was, and so are `T`
and the verbosity and clamping settings. -/
theorem SetIntegrable_frame (s : ChTimestepperIIorder) (mintegrable : Option ChIntegrable) :
    (s.SetIntegrable mintegrable).get_X = ChState.Reset s.X 1 mintegrable
      ∧ (s.SetIntegrable mintegrable).get_V = ChStateDelta.Reset s.V 1 mintegrable
      ∧ (s.SetIntegrable mintegrable).get_A = ChStateDelta.Reset s.A 1 mintegrable
      ∧ (s.SetIntegrable mintegrable).GetIntegrable = mintegrable
      ∧ (s.SetIntegrable mintegrable).get_L = s.get_L
      ∧ (s.SetIntegrable mintegrable).GetTime = s.GetTime
      ∧ (s.SetIntegrable mintegrable).verbose = s.verbose
      ∧ (s.SetIntegrable mintegrable).Qc_do_clamp = s.Qc_do_clamp
      ∧ (s.SetIntegrable mintegrable).Qc_clamping = s.Qc_clamping := by
  rw [ChTimestepperIIorder.SetIntegrable_eq]
  exact ⟨rfl, rfl, rfl, rfl, rfl, rfl, rfl, rfl, rfl⟩

/-- After any `SetIntegrable` call `V` and `A` have the same number of rows. -/
theorem ChTimestepperIIorder.SetIntegrable_rows_V_A (s : ChTimestepperIIorder)
    (mintegrable : Option ChIntegrable) :
    (s.SetIntegrable mintegrable).get_V.GetRows = (s.SetIntegrable mintegrable).get_A.GetRows := by
  rw [ChTimestepperIIorder.SetIntegrable_eq]
  rfl

/-- A sequence of `SetIntegrable` calls keeps `V` and `A` of equal dimension. -/
theorem ChTimestepperIIorder.attach_rows_V_A (ms : List (Option ChIntegrable)) :
    ∀ s : ChTimestepperIIorder, s.get_V.GetRows = s.get_A.GetRows →
      (ChTimestepperIIorder.attach ms s).get_V.GetRows
        = (ChTimestepperIIorder.attach ms s).get_A.GetRows := by
  induction ms with
  | nil => intro s h; exact h
  | cons m ms ih =>
    intro s _
    exact ih (s.SetIntegrable m) (ChTimestepperIIorder.SetIntegrable_rows_V_A s m)

/-- C8: in every state reached from the constructor (bound to any system or to
none) by any sequence of `SetIntegrable` calls (with any systems, or none), the
velocity vector `V` and the acceleration vector `A` have the same dimension. -/
theorem attach_V_A_same_dimension (m0 : Option ChIntegrable) (ms : List (Option ChIntegrable)) :
    (ChTimestepperIIorder.attach ms (ChTimestepperIIorder.ctor m0)).get_V.GetRows
      = (ChTimestepperIIorder.attach ms (ChTimestepperIIorder.ctor m0)).get_A.GetRows :=
  ChTimestepperIIorder.attach_rows_V_A ms (ChTimestepperIIorder.ctor m0)
    (ChTimestepperIIorder.SetIntegrable_rows_V_A _ m0)

/-! ## Reading an archive: generic facts -/

/-- A property of the object that holds before an extraction statement, and that
the assignment keeps whenever the read succeeds, holds after it. -/
theorem ArchiveInResult.extract_preserves_of_read {σ α : Type} (P : σ → Prop)
    (r : ArchiveInResult σ) (read : ChArchiveIn → Option (α × ChArchiveIn)) (set : σ → α → σ)
    (h : P r.obj)
    (hstep : ∀ a rest, r.ok = true → read r.marchive = some (a, rest) → P (set r.obj a)) :
    P (r.extract read set).obj := by
  unfold ArchiveInResult.extract
  by_cases hok : r.ok = true
  · rw [if_pos hok]
    cases hread : read r.marchive with
    | none => exact h
    | some p =>
      obtain ⟨a, rest⟩ := p
      exact hstep a rest hok hread
  · rw [if_neg hok]
    exact h

/-- A property of the object kept by the assignment is kept by the extraction
statement. -/
theorem ArchiveInResult.extract_preserves {σ α : Type} (P : σ → Prop)
    (r : ArchiveInResult σ) (read : ChArchiveIn → Option (α × ChArchiveIn)) (set : σ → α → σ)
    (h : P r.obj) (hset : ∀ s a, P s → P (set s a)) :
    P (r.extract read set).obj :=
  ArchiveInResult.extract_preserves_of_read P r read set h (fun a _ _ _ => hset r.obj a h)

/-- A property of the object that does not depend on the parent sub-object is
kept by a parent `ArchiveIN` call. -/
theorem ArchiveInResult.parent_preserves {σ τ : Type} (P : σ → Prop)
    (r : ArchiveInResult σ) (get : σ → τ) (put : σ → τ → σ)
    (f : τ → ChArchiveIn → ArchiveInResult τ)
    (h : P r.obj) (hput : ∀ s t, P s → P (put s t)) :
    P (r.parent get put f).obj := by
  unfold ArchiveInResult.parent
  by_cases hok : r.ok = true
  · rw [if_pos hok]
    exact hput _ _ h
  · rw [if_neg hok]
    exact h

/-- The base-class `ArchiveIN` never assigns `T`. -/
theorem ChTimestepper.ArchiveIN_T (s : ChTimestepper) (marchive : ChArchiveIn) :
    (s.ArchiveIN marchive).obj.T = s.T := by
  unfold ChTimestepper.ArchiveIN
  refine ArchiveInResult.extract_preserves (fun o : ChTimestepper => o.T = s.T) _ _ _ ?_ (fun _ _ h => h)
  refine ArchiveInResult.extract_preserves (fun o : ChTimestepper => o.T = s.T) _ _ _ ?_ (fun _ _ h => h)
  refine ArchiveInResult.extract_preserves (fun o : ChTimestepper => o.T = s.T) _ _ _ ?_ (fun _ _ h => h)
  refine ArchiveInResult.extract_preserves (fun o : ChTimestepper => o.T = s.T) _ _ _ ?_ (fun _ _ h => h)
  rfl

/-- The implicit-iterative `ArchiveIN` never assigns a counter. -/
theorem ChImplicitIterativeTimestepper.ArchiveIN_counters (s : ChImplicitIterativeTimestepper)
    (marchive : ChArchiveIn) :
    (s.ArchiveIN marchive).obj.numiters = s.numiters
      ∧ (s.ArchiveIN marchive).obj.numsetups = s.numsetups
      ∧ (s.ArchiveIN marchive).obj.numsolves = s.numsolves := by
  unfold ChImplicitIterativeTimestepper.ArchiveIN
  refine ArchiveInResult.extract_preserves (fun o : ChImplicitIterativeTimestepper => o.numiters = s.numiters
    ∧ o.numsetups = s.numsetups ∧ o.numsolves = s.numsolves) _ _ _ ?_ (fun _ _ h => h)
  refine ArchiveInResult.extract_preserves (fun o : ChImplicitIterativeTimestepper => o.numiters = s.numiters
    ∧ o.numsetups = s.numsetups ∧ o.numsolves = s.numsolves) _ _ _ ?_ (fun _ _ h => h)
  refine ArchiveInResult.extract_preserves (fun o : ChImplicitIterativeTimestepper => o.numiters = s.numiters
    ∧ o.numsetups = s.numsetups ∧ o.numsolves = s.numsolves) _ _ _ ?_ (fun _ _ h => h)
  refine ArchiveInResult.extract_preserves (fun o : ChImplicitIterativeTimestepper => o.numiters = s.numiters
    ∧ o.numsetups = s.numsetups ∧ o.numsolves = s.numsolves) _ _ _ ?_ (fun _ _ h => h)
  refine ArchiveInResult.extract_preserves (fun o : ChImplicitIterativeTimestepper => o.numiters = s.numiters
    ∧ o.numsetups = s.numsetups ∧ o.numsolves = s.numsolves) _ _ _ ?_ (fun _ _ h => h)
  exact ⟨rfl, rfl, rfl⟩

/-! ## Simulation time -/

/-- C10: every operation the implicit-iterative capability defines in the
header (`SetMaxiters`, `SetRelTolerance`, both `SetAbsTolerances` overloads,
`ArchiveOUT`, `ArchiveIN` from any record), on any state, leaves each of
`GetNumIterations()`, `GetNumSetupCalls()` and `GetNumSolveCalls()` greater
than or equal to its previous value. -/
theorem counters_nondecreasing (s : ChImplicitIterativeTimestepper)
    (op : ChImplicitIterativeTimestepper.Op) :
    s.GetNumIterations ≤ (op.apply s).GetNumIterations
      ∧ s.GetNumSetupCalls ≤ (op.apply s).GetNumSetupCalls
      ∧ s.GetNumSolveCalls ≤ (op.apply s).GetNumSolveCalls := by
  cases op with
  | ArchiveIN marchive =>
    obtain ⟨h1, h2, h3⟩ := ChImplicitIterativeTimestepper.ArchiveIN_counters s marchive
    exact ⟨le_of_eq h1.symm, le_of_eq h2.symm, le_of_eq h3.symm⟩
  | SetMaxiters _ => exact ⟨le_refl _, le_refl _, le_refl _⟩
  | SetRelTolerance _ => exact ⟨le_refl _, le_refl _, le_refl _⟩
  | SetAbsTolerances _ _ => exact ⟨le_refl _, le_refl _, le_refl _⟩
  | SetAbsTolerances1 _ => exact ⟨le_refl _, le_refl _, le_refl _⟩
  | ArchiveOUT _ => exact ⟨le_refl _, le_refl _, le_refl _⟩

/-! ## The Newmark parameter range as an invariant -/

/-- A successful `VersionRead` removes the first value of the archive. -/
theorem ChArchiveIn.VersionRead_some {a rest : ChArchiveIn} {v : Int}
    (h : a.VersionRead = some (v, rest)) : a.items = ArchiveItem.version v :: rest.items := by
  unfold ChArchiveIn.VersionRead at h
  split at h
  · simp only [Option.some.injEq, Prod.mk.injEq] at h
    obtain ⟨rfl, rfl⟩ := h
    assumption
  · cases h

/-- A successful `bool` read removes the first value of the archive. -/
theorem ChArchiveIn.readBool_some {a rest : ChArchiveIn} {b : Bool}
    (h : a.readBool = some (b, rest)) : a.items = ArchiveItem.bool b :: rest.items := by
  unfold ChArchiveIn.readBool at h
  split at h
  · simp only [Option.some.injEq, Prod.mk.injEq] at h
    obtain ⟨rfl, rfl⟩ := h
    assumption
  · cases h

/-- A successful `int` read removes the first value of the archive. -/
theorem ChArchiveIn.readInt_some {a rest : ChArchiveIn} {i : Int}
    (h : a.readInt = some (i, rest)) : a.items = ArchiveItem.int i :: rest.items := by
  unfold ChArchiveIn.readInt at h
  split at h
  · simp only [Option.some.injEq, Prod.mk.injEq] at h
    obtain ⟨rfl, rfl⟩ := h
    assumption
  · cases h

/-- A successful `double` read removes the first value of the archive. -/
theorem ChArchiveIn.readDouble_some {a rest : ChArchiveIn} {d : Double}
    (h : a.readDouble = some (d, rest)) : a.items = ArchiveItem.double d :: rest.items := by
  unfold ChArchiveIn.readDouble at h
  split at h
  · simp only [Option.some.injEq, Prod.mk.injEq] at h
    obtain ⟨rfl, rfl⟩ := h
    assumption
  · cases h

/-- If the body is still good after an extraction statement whose read removes
one value, and `k` values of `items` had been consumed before it, then `k + 1`
values have been consumed after it. -/
theorem ArchiveInResult.extract_consumed {σ α : Type} (items : List ArchiveItem) (k : Nat)
    (r : ArchiveInResult σ) (read : ChArchiveIn → Option (α × ChArchiveIn)) (set : σ → α → σ)
    (hread : ∀ a x rest, read a = some (x, rest) → rest.items = a.items.drop 1)
    (h : r.ok = true → r.marchive.items = items.drop k) :
    (r.extract read set).ok = true → (r.extract read set).marchive.items = items.drop (k + 1) := by
  unfold ArchiveInResult.extract
  by_cases hok : r.ok = true
  · rw [if_pos hok]
    cases hr : read r.marchive with
    | none => intro hfalse; cases hfalse
    | some p =>
      obtain ⟨x, rest⟩ := p
      intro _
      show rest.items = items.drop (k + 1)
      rw [hread _ _ _ hr, h hok, List.drop_drop]
  · rw [if_neg hok]
    intro h2
    exact absurd h2 hok

/-- The same for a parent `ArchiveIN` call that consumes `j` values. -/
theorem ArchiveInResult.parent_consumed {σ τ : Type} (items : List ArchiveItem) (k j : Nat)
    (r : ArchiveInResult σ) (get : σ → τ) (put : σ → τ → σ)
    (f : τ → ChArchiveIn → ArchiveInResult τ)
    (hf : ∀ t a, (f t a).ok = true → (f t a).marchive.items = a.items.drop j)
    (h : r.ok = true → r.marchive.items = items.drop k) :
    (r.parent get put f).ok = true → (r.parent get put f).marchive.items = items.drop (k + j) := by
  unfold ArchiveInResult.parent
  by_cases hok : r.ok = true
  · rw [if_pos hok]
    intro h2
    show (f (get r.obj) r.marchive).marchive.items = items.drop (k + j)
    rw [hf _ _ h2, h hok, List.drop_drop]
  · rw [if_neg hok]
    intro h2
    exact absurd h2 hok

/-- A successful base-class `ArchiveIN` consumes four values. -/
theorem ChTimestepper.ArchiveIN_consumed_four (s : ChTimestepper) (marchive : ChArchiveIn) :
    (s.ArchiveIN marchive).ok = true →
      (s.ArchiveIN marchive).marchive.items = marchive.items.drop 4 := by
  unfold ChTimestepper.ArchiveIN
  refine ArchiveInResult.extract_consumed marchive.items 3 _ _ _
    (fun a x rest h => by rw [ChArchiveIn.readDouble_some h]; rfl) ?_
  refine ArchiveInResult.extract_consumed marchive.items 2 _ _ _
    (fun a x rest h => by rw [ChArchiveIn.readBool_some h]; rfl) ?_
  refine ArchiveInResult.extract_consumed marchive.items 1 _ _ _
    (fun a x rest h => by rw [ChArchiveIn.readBool_some h]; rfl) ?_
  refine ArchiveInResult.extract_consumed marchive.items 0 _ _ _
    (fun a x rest h => by rw [ChArchiveIn.VersionRead_some h]; rfl) ?_
  intro _
  rfl

/-- A successful implicit-iterative `ArchiveIN` consumes five values. -/
theorem ChImplicitIterativeTimestepper.ArchiveIN_consumed_five (s : ChImplicitIterativeTimestepper)
    (marchive : ChArchiveIn) :
    (s.ArchiveIN marchive).ok = true →
      (s.ArchiveIN marchive).marchive.items = marchive.items.drop 5 := by
  unfold ChImplicitIterativeTimestepper.ArchiveIN
  refine ArchiveInResult.extract_consumed marchive.items 4 _ _ _
    (fun a x rest h => by rw [ChArchiveIn.readDouble_some h]; rfl) ?_
  refine ArchiveInResult.extract_consumed marchive.items 3 _ _ _
    (fun a x rest h => by rw [ChArchiveIn.readDouble_some h]; rfl) ?_
  refine ArchiveInResult.extract_consumed marchive.items 2 _ _ _
    (fun a x rest h => by rw [ChArchiveIn.readDouble_some h]; rfl) ?_
  refine ArchiveInResult.extract_consumed marchive.items 1 _ _ _
    (fun a x rest h => by rw [ChArchiveIn.readInt_some h]; rfl) ?_
  refine ArchiveInResult.extract_consumed marchive.items 0 _ _ _
    (fun a x rest h => by rw [ChArchiveIn.VersionRead_some h]; rfl) ?_
  intro _
  rfl

/-- The value a successful `double` read returns is the one at the current
position of the record. -/
theorem ChArchiveIn.readDouble_at {items : List ArchiveItem} {k : Nat} {a rest : ChArchiveIn}
    {d : Double} (hpos : a.items = items.drop k) (h : a.readDouble = some (d, rest)) :
    items[k]? = some (ArchiveItem.double d) := by
  have h1 := ChArchiveIn.readDouble_some h
  rw [hpos] at h1
  have h2 : (items.drop k)[0]? = some (ArchiveItem.double d) := by rw [h1]; simp
  rw [List.getElem?_drop] at h2
  simpa using h2

/-- `ChTimestepperNewmark::ArchiveIN` keeps the parameter range when the record
does not carry an out-of-range `beta` or `gamma`. -/
theorem ChTimestepperNewmark.ArchiveIN_InRange (s : ChTimestepperNewmark)
    (marchive : ChArchiveIn) (hs : s.InRange) (hrec : marchive.NewmarkInRange) :
    (s.ArchiveIN marchive).obj.InRange := by
  unfold ChTimestepperNewmark.ArchiveIN
  have hstart : (ArchiveInResult.start s marchive).ok = true →
      (ArchiveInResult.start s marchive).marchive.items = marchive.items.drop 0 := fun _ => rfl
  have hc1 := ArchiveInResult.extract_consumed marchive.items 0
    (ArchiveInResult.start s marchive) ChArchiveIn.VersionRead
    (fun (s : ChTimestepperNewmark) (_version : Int) => s)
    (fun a x rest h => by rw [ChArchiveIn.VersionRead_some h]; rfl) hstart
  have hp1 := ArchiveInResult.extract_preserves ChTimestepperNewmark.InRange
    (ArchiveInResult.start s marchive) ChArchiveIn.VersionRead
    (fun (s : ChTimestepperNewmark) (_version : Int) => s) hs (fun _ _ h => h)
  have hc2 := ArchiveInResult.parent_consumed marchive.items (0 + 1) 4 _
    (fun s : ChTimestepperNewmark => s.toChTimestepper)
    (fun s p => { s with toChTimestepper := p }) ChTimestepper.ArchiveIN
    ChTimestepper.ArchiveIN_consumed_four hc1
  have hp2 := ArchiveInResult.parent_preserves ChTimestepperNewmark.InRange _
    (fun s : ChTimestepperNewmark => s.toChTimestepper)
    (fun s p => { s with toChTimestepper := p }) ChTimestepper.ArchiveIN hp1 (fun _ _ h => h)
  have hc3 := ArchiveInResult.parent_consumed marchive.items (0 + 1 + 4) 5 _
    (fun s : ChTimestepperNewmark => s.toChImplicitIterativeTimestepper)
    (fun s p => { s with toChImplicitIterativeTimestepper := p })
    ChImplicitIterativeTimestepper.ArchiveIN
    ChImplicitIterativeTimestepper.ArchiveIN_consumed_five hc2
  have hp3 := ArchiveInResult.parent_preserves ChTimestepperNewmark.InRange _
    (fun s : ChTimestepperNewmark => s.toChImplicitIterativeTimestepper)
    (fun s p => { s with toChImplicitIterativeTimestepper := p })
    ChImplicitIterativeTimestepper.ArchiveIN hp2 (fun _ _ h => h)
  have hc4 := ArchiveInResult.extract_consumed marchive.items (0 + 1 + 4 + 5) _
    ChArchiveIn.readDouble (fun (s : ChTimestepperNewmark) d => { s with beta := d })
    (fun a x rest h => by rw [ChArchiveIn.readDouble_some h]; rfl) hc3
  have hp4 := ArchiveInResult.extract_preserves_of_read ChTimestepperNewmark.InRange _
    ChArchiveIn.readDouble (fun (s : ChTimestepperNewmark) d => { s with beta := d }) hp3
    (fun d rest hok hread =>
      ⟨hp3.1, hrec.1 d (ChArchiveIn.readDouble_at (hc3 hok) hread)⟩)
  exact ArchiveInResult.extract_preserves_of_read ChTimestepperNewmark.InRange _
    ChArchiveIn.readDouble (fun (s : ChTimestepperNewmark) d => { s with gamma := d }) hp4
    (fun d rest hok hread =>
      ⟨hrec.2 d (ChArchiveIn.readDouble_at (hc4 hok) hread), hp4.2⟩)

/-- `SetGammaBeta` with arguments that are not NaN leaves the parameters in
range, whatever the object held. -/
theorem ChTimestepperNewmark.SetGammaBeta_InRange (s : ChTimestepperNewmark)
    (mgamma mbeta : Double) (hg : mgamma ≠ Double.nan) (hb : mbeta ≠ Double.nan) :
    (s.SetGammaBeta mgamma mbeta).InRange := by
  simp only [ChTimestepperNewmark.InRange, ChTimestepperNewmark.SetGammaBeta,
    ChTimestepperNewmark.GetGamma, ChTimestepperNewmark.GetBeta]
  cases mgamma <;> cases mbeta <;>
    simp [Double.lt_def, Double.gt_def, Double.lt, Double.le_def, Double.le, Double.ofNat_eq,
      Double.ofScientific_eq] at hg hb ⊢ <;>
    (try split_ifs) <;> (try simp_all) <;> (try norm_num at *)

/-- Every admissible call keeps the parameter range. -/
theorem ChTimestepperNewmark.Op.apply_InRange (op : ChTimestepperNewmark.Op)
    (s : ChTimestepperNewmark) (hs : s.InRange) (hop : op.Admissible) :
    (op.apply s).InRange := by
  cases op with
  | SetGammaBeta mgamma mbeta =>
    exact ChTimestepperNewmark.SetGammaBeta_InRange s mgamma mbeta hop.1 hop.2
  | ArchiveIN marchive => exact ChTimestepperNewmark.ArchiveIN_InRange s marchive hs hop
  | SetIntegrable _ => exact hs
  | SetTime _ => exact hs
  | SetVerbose _ => exact hs
  | SetQcDoClamp _ => exact hs
  | SetQcClamping _ => exact hs
  | SetMaxiters _ => exact hs
  | SetRelTolerance _ => exact hs
  | SetAbsTolerances _ _ => exact hs
  | SetAbsTolerances1 _ => exact hs

/-- A sequence of admissible calls keeps the parameter range. -/
theorem ChTimestepperNewmark.run_InRange (ops : List ChTimestepperNewmark.Op) :
    ∀ s : ChTimestepperNewmark, s.InRange → (∀ op ∈ ops, op.Admissible) →
      (ChTimestepperNewmark.run ops s).InRange := by
  induction ops with
  | nil => intro s hs _; exact hs
  | cons op ops ih =>
    intro s hs hops
    exact ih (op.apply s)
      (ChTimestepperNewmark.Op.apply_InRange op s hs (hops op (List.mem_cons_self _ _)))
      (fun o ho => hops o (List.mem_cons_of_mem _ ho))

/-- C3, the claim as stated fails.  Reading, into a freshly constructed Newmark
integrator, the record a default instance writes but with 5 in the place of
`gamma` leaves `GetGamma() = 5`, outside `[0.5, 1]`; and `SetGammaBeta(NaN,
NaN)` on a freshly constructed integrator leaves `GetGamma()` and `GetBeta()`
NaN, which lie in no range. -/
theorem ArchiveIN_range_counterexample :
    (ChTimestepperNewmark.run
        [ChTimestepperNewmark.Op.ArchiveIN
          { items := [ArchiveItem.version 1, ArchiveItem.version 1, ArchiveItem.bool false,
              ArchiveItem.bool false, ArchiveItem.double 1e30, ArchiveItem.version 1,
              ArchiveItem.int 6, ArchiveItem.double 1e-4, ArchiveItem.double 1e-10,
              ArchiveItem.double 1e-10, ArchiveItem.double 0.3, ArchiveItem.double 5] }]
        (ChTimestepperNewmark.ctor none)).GetGamma = 5
      ∧ ¬ (ChTimestepperNewmark.run
        [ChTimestepperNewmark.Op.ArchiveIN
          { items := [ArchiveItem.version 1, ArchiveItem.version 1, ArchiveItem.bool false,
              ArchiveItem.bool false, ArchiveItem.double 1e30, ArchiveItem.version 1,
              ArchiveItem.int 6, ArchiveItem.double 1e-4, ArchiveItem.double 1e-10,
              ArchiveItem.double 1e-10, ArchiveItem.double 0.3, ArchiveItem.double 5] }]
        (ChTimestepperNewmark.ctor none)).InRange
      ∧ (ChTimestepperNewmark.run
          [ChTimestepperNewmark.Op.SetGammaBeta Double.nan Double.nan]
          (ChTimestepperNewmark.ctor none)).GetGamma = Double.nan
      ∧ (ChTimestepperNewmark.run
          [ChTimestepperNewmark.Op.SetGammaBeta Double.nan Double.nan]
          (ChTimestepperNewmark.ctor none)).GetBeta = Double.nan
      ∧ ¬ (ChTimestepperNewmark.run
            [ChTimestepperNewmark.Op.SetGammaBeta Double.nan Double.nan]
            (ChTimestepperNewmark.ctor none)).InRange := by
  have hg : (ChTimestepperNewmark.run
        [ChTimestepperNewmark.Op.ArchiveIN
          { items := [ArchiveItem.version 1, ArchiveItem.version 1, ArchiveItem.bool false,
              ArchiveItem.bool false, ArchiveItem.double 1e30, ArchiveItem.version 1,
              ArchiveItem.int 6, ArchiveItem.double 1e-4, ArchiveItem.double 1e-10,
              ArchiveItem.double 1e-10, ArchiveItem.double 0.3, ArchiveItem.double 5] }]
        (ChTimestepperNewmark.ctor none)).GetGamma = 5 := by
    simp [ChTimestepperNewmark.run, ChTimestepperNewmark.Op.apply,
      ChTimestepperNewmark.ArchiveIN, ChTimestepper.ArchiveIN,
      ChImplicitIterativeTimestepper.ArchiveIN, ArchiveInResult.start,
      ArchiveInResult.extract, ArchiveInResult.parent, ChArchiveIn.VersionRead,
      ChArchiveIn.readBool, ChArchiveIn.readInt, ChArchiveIn.readDouble,
      ChTimestepperNewmark.GetGamma]
  have hn : (ChTimestepperNewmark.run
          [ChTimestepperNewmark.Op.SetGammaBeta Double.nan Double.nan]
          (ChTimestepperNewmark.ctor none)).GetGamma = Double.nan := by
    simp [ChTimestepperNewmark.run, ChTimestepperNewmark.Op.apply,
      ChTimestepperNewmark.SetGammaBeta, ChTimestepperNewmark.GetGamma, Double.lt_def,
      Double.gt_def, Double.lt]
  have hnb : (ChTimestepperNewmark.run
          [ChTimestepperNewmark.Op.SetGammaBeta Double.nan Double.nan]
          (ChTimestepperNewmark.ctor none)).GetBeta = Double.nan := by
    simp [ChTimestepperNewmark.run, ChTimestepperNewmark.Op.apply,
      ChTimestepperNewmark.SetGammaBeta, ChTimestepperNewmark.GetBeta, Double.lt_def,
      Double.gt_def, Double.lt]
  refine ⟨hg, ?_, hn, hnb, ?_⟩
  · unfold ChTimestepperNewmark.InRange
    rw [hg]
    simp only [Double.le_def, Double.le, Double.ofNat_eq, Double.ofScientific_eq]
    norm_num
  · unfold ChTimestepperNewmark.InRange
    rw [hn]
    simp [Double.le_def, Double.le]

/-- The constructor establishes the parameter range. -/
theorem ChTimestepperNewmark.ctor_InRange (mintegrable : Option ChIntegrable) :
    (ChTimestepperNewmark.ctor mintegrable).InRange := by
  simp only [ChTimestepperNewmark.InRange, ChTimestepperNewmark.ctor,
    ChTimestepperNewmark.SetGammaBeta, ChTimestepperNewmark.GetGamma,
    ChTimestepperNewmark.GetBeta, Double.lt_def, Double.gt_def, Double.lt, Double.le_def,
    Double.le, Double.ofNat_eq, Double.ofScientific_eq]
  norm_num

/-- C3, amended: in every state reached from construction by any sequence of
`SetGammaBeta` calls with arguments that are not NaN, of the inherited
configuration setters, and of `ArchiveIN` calls from records whose values in
the places of `beta` and `gamma` lie in `[0, 1]` and `[0.5, 1]`, the parameters
satisfy `0.5 ≤ gamma ≤ 1` and `0 ≤ beta ≤ 1`. -/
theorem newmark_range_invariant (mintegrable : Option ChIntegrable)
    (ops : List ChTimestepperNewmark.Op) (hops : ∀ op ∈ ops, op.Admissible) :
    (0.5 ≤ (ChTimestepperNewmark.run ops (ChTimestepperNewmark.ctor mintegrable)).GetGamma
        ∧ (ChTimestepperNewmark.run ops (ChTimestepperNewmark.ctor mintegrable)).GetGamma ≤ 1)
      ∧ (0 ≤ (ChTimestepperNewmark.run ops (ChTimestepperNewmark.ctor mintegrable)).GetBeta
        ∧ (ChTimestepperNewmark.run ops (ChTimestepperNewmark.ctor mintegrable)).GetBeta ≤ 1) :=
  ChTimestepperNewmark.run_InRange ops (ChTimestepperNewmark.ctor mintegrable)
    (ChTimestepperNewmark.ctor_InRange mintegrable) hops

/-- C3, amended, at a concrete input: `SetGammaBeta(7, -2)`, then
`SetGammaBeta(+inf, -inf)`, then `ArchiveIN` of a record holding `beta = 0.25`
and `gamma = 0.5`, then `SetTime(NaN)`. -/
theorem newmark_range_invariant_witness :
    (ChTimestepperNewmark.run
      [ChTimestepperNewmark.Op.SetGammaBeta 7 (-2),
        ChTimestepperNewmark.Op.SetGammaBeta Double.pinf Double.ninf,
        ChTimestepperNewmark.Op.ArchiveIN
          { items := [ArchiveItem.version 1, ArchiveItem.version 1, ArchiveItem.bool true,
              ArchiveItem.bool false, ArchiveItem.double 1e30, ArchiveItem.version 1,
              ArchiveItem.int 6, ArchiveItem.double 1e-4, ArchiveItem.double 1e-10,
              ArchiveItem.double 1e-10, ArchiveItem.double 0.25, ArchiveItem.double 0.5] },
        ChTimestepperNewmark.Op.SetTime Double.nan]
      (ChTimestepperNewmark.ctor none)).InRange :=
  newmark_range_invariant none _ (by
    intro op hop
    simp only [List.mem_cons, List.mem_singleton, List.not_mem_nil, or_false] at hop
    rcases hop with rfl | rfl | rfl | rfl
    · exact ⟨by simp [Double.ofNat_eq], by simp [Double.ofNat_eq, Double.neg_fin]⟩
    · exact ⟨by simp, by simp⟩
    · constructor
      · intro b hb
        simp at hb
        subst hb
        simp only [Double.le_def, Double.le, Double.ofNat_eq, Double.ofScientific_eq]
        norm_num
      · intro g hg
        simp at hg
        subst hg
        simp only [Double.le_def, Double.le, Double.ofNat_eq, Double.ofScientific_eq]
        norm_num
    · trivial)

/-! ## Persistence -/

/-- The record `ChTimestepperNewmark::ArchiveOUT` appends: twelve values, in
this order. -/
theorem ChTimestepperNewmark.ArchiveOUT_items (s : ChTimestepperNewmark)
    (marchive : ChArchiveOut) :
    (s.ArchiveOUT marchive).items = marchive.items ++
      [ArchiveItem.version 1, ArchiveItem.version 1, ArchiveItem.bool s.verbose,
        ArchiveItem.bool s.Qc_do_clamp, ArchiveItem.double s.Qc_clamping,
        ArchiveItem.version 1, ArchiveItem.int s.maxiters, ArchiveItem.double s.reltol,
        ArchiveItem.double s.abstolS, ArchiveItem.double s.abstolL,
        ArchiveItem.double s.beta, ArchiveItem.double s.gamma] := by
  simp [ChTimestepperNewmark.ArchiveOUT, ChTimestepper.ArchiveOUT,
    ChImplicitIterativeTimestepper.ArchiveOUT, ChArchiveOut.VersionWrite,
    ChArchiveOut.writeBool, ChArchiveOut.writeInt, ChArchiveOut.writeDouble]

/-- What `ChTimestepperNewmark::ArchiveIN` does on a well-formed record of
twelve values followed by anything: every read succeeds, the nine configuration
members take the record's values, the other members of the target are kept,
and what follows the record is left in the archive. -/
theorem ChTimestepperNewmark.ArchiveIN_wellformed (t : ChTimestepperNewmark)
    (v0 v1 v2 : Int) (verbose Qc_do_clamp : Bool) (Qc_clamping : Double) (maxiters : Int)
    (reltol abstolS abstolL beta gamma : Double) (rest : List ArchiveItem) :
    t.ArchiveIN { items :=
        [ArchiveItem.version v0, ArchiveItem.version v1, ArchiveItem.bool verbose,
          ArchiveItem.bool Qc_do_clamp, ArchiveItem.double Qc_clamping,
          ArchiveItem.version v2, ArchiveItem.int maxiters, ArchiveItem.double reltol,
          ArchiveItem.double abstolS, ArchiveItem.double abstolL,
          ArchiveItem.double beta, ArchiveItem.double gamma] ++ rest }
      = { obj :=
            { integrable := t.integrable, T := t.T, L := t.L, verbose := verbose,
              Qc_do_clamp := Qc_do_clamp, Qc_clamping := Qc_clamping,
              X := t.X, V := t.V, A := t.A,
              maxiters := maxiters, reltol := reltol, abstolS := abstolS, abstolL := abstolL,
              numiters := t.numiters, numsetups := t.numsetups, numsolves := t.numsolves,
              gamma := gamma, beta := beta }
          marchive := { items := rest }
          ok := true } := by
  simp [ChTimestepperNewmark.ArchiveIN, ChTimestepper.ArchiveIN,
    ChImplicitIterativeTimestepper.ArchiveIN, ArchiveInResult.start,
    ArchiveInResult.extract, ArchiveInResult.parent, ChArchiveIn.VersionRead,
    ChArchiveIn.readBool, ChArchiveIn.readInt, ChArchiveIn.readDouble]

/-- Two output archives with the same sequence of values are equal. -/
theorem ChArchiveOut.eq_of_items {a b : ChArchiveOut} (h : a.items = b.items) : a = b := by
  cases a
  cases b
  simp only [ChArchiveOut.mk.injEq]
  exact h

/-- C11: persistence round trip for Newmark.  For every state `s` and every
target `t`, reading with `t.ArchiveIN` the record written by `s.ArchiveOUT`
(the ordered sequence of written values, version numbers included) succeeds,
consumes the whole record, and leaves `t` with the `verbose`, `Qc_do_clamp`,
`Qc_clamping`, `maxiters`, `reltol`, `abstolS`, `abstolL`, `gamma` and `beta`
of `s`. -/
theorem ArchiveIN_ArchiveOUT_round_trip (s t : ChTimestepperNewmark) :
    (s.ArchiveRoundTrip t).ok = true
      ∧ (s.ArchiveRoundTrip t).marchive.items = []
      ∧ (s.ArchiveRoundTrip t).obj.verbose = s.verbose
      ∧ (s.ArchiveRoundTrip t).obj.Qc_do_clamp = s.Qc_do_clamp
      ∧ (s.ArchiveRoundTrip t).obj.Qc_clamping = s.Qc_clamping
      ∧ (s.ArchiveRoundTrip t).obj.maxiters = s.maxiters
      ∧ (s.ArchiveRoundTrip t).obj.reltol = s.reltol
      ∧ (s.ArchiveRoundTrip t).obj.abstolS = s.abstolS
      ∧ (s.ArchiveRoundTrip t).obj.abstolL = s.abstolL
      ∧ (s.ArchiveRoundTrip t).obj.GetGamma = s.GetGamma
      ∧ (s.ArchiveRoundTrip t).obj.GetBeta = s.GetBeta := by
  have h := ChTimestepperNewmark.ArchiveIN_wellformed t 1 1 1 s.verbose s.Qc_do_clamp
    s.Qc_clamping s.maxiters s.reltol s.abstolS s.abstolL s.beta s.gamma []
  rw [List.append_nil] at h
  unfold ChTimestepperNewmark.ArchiveRoundTrip
  rw [ChTimestepperNewmark.ArchiveOUT_items, List.nil_append, h]
  exact ⟨rfl, rfl, rfl, rfl, rfl, rfl, rfl, rfl, rfl, rfl, rfl⟩

/-- C12: no transient state is persisted.  Two Newmark instances that agree on
`verbose`, `Qc_do_clamp`, `Qc_clamping`, `maxiters`, `reltol`, `abstolS`,
`abstolL`, `gamma` and `beta` write the same record with `ArchiveOUT`, whatever
their `T`, `L`, `X`, `V`, `A`, attached system and counters are. -/
theorem ArchiveOUT_depends_on_configuration_only (s1 s2 : ChTimestepperNewmark)
    (marchive : ChArchiveOut)
    (hverbose : s1.verbose = s2.verbose) (hdo : s1.Qc_do_clamp = s2.Qc_do_clamp)
    (hcl : s1.Qc_clamping = s2.Qc_clamping) (hmax : s1.maxiters = s2.maxiters)
    (hrel : s1.reltol = s2.reltol) (hS : s1.abstolS = s2.abstolS)
    (hL : s1.abstolL = s2.abstolL) (hgamma : s1.gamma = s2.gamma)
    (hbeta : s1.beta = s2.beta) :
    s1.ArchiveOUT marchive = s2.ArchiveOUT marchive := by
  apply ChArchiveOut.eq_of_items
  rw [ChTimestepperNewmark.ArchiveOUT_items, ChTimestepperNewmark.ArchiveOUT_items,
    hverbose, hdo, hcl, hmax, hrel, hS, hL, hgamma, hbeta]

/-- C12 at a concrete input: a fresh Newmark integrator and one with the same
configuration but an attached system, `T = 5`, non-empty `L`, `X`, `V`, `A`
and non-zero counters write the same record. -/
theorem ArchiveOUT_depends_on_configuration_only_witness :
    (ChTimestepperNewmark.ctor none).ArchiveOUT { items := [] }
      = ChTimestepperNewmark.ArchiveOUT
          { ChTimestepperNewmark.ctor none with
            integrable := some { ncoords_x := 7, ncoords_v := 6 }
            T := 5
            L := { elems := [1, 2] }
            X := { elems := [1, 2, 3], integrable := none }
            V := { elems := [4, 5], integrable := none }
            A := { elems := [6], integrable := none }
            numiters := 3
            numsetups := 4
            numsolves := 5 }
          { items := [] } :=
  ArchiveOUT_depends_on_configuration_only _ _ _ rfl rfl rfl rfl rfl rfl rfl rfl rfl

/-! ## Tolerances and the iteration cap -/

/-- C13: for every value `t` and every state, `SetAbsTolerances(t)` leaves the
object in exactly the state `SetAbsTolerances(t, t)` does: `abstolS = abstolL
= t`, with `maxiters`, `reltol` and the three counters unchanged; and for every
`a`, `b`, `SetAbsTolerances(a, b)` yields `abstolS = a` and `abstolL = b`. -/
theorem SetAbsTolerances_joint_and_separate (s : ChImplicitIterativeTimestepper)
    (t a b : Double) :
    s.SetAbsTolerances1 t = s.SetAbsTolerances t t
      ∧ (s.SetAbsTolerances1 t).abstolS = t
      ∧ (s.SetAbsTolerances1 t).abstolL = t
      ∧ (s.SetAbsTolerances1 t).maxiters = s.maxiters
      ∧ (s.SetAbsTolerances1 t).reltol = s.reltol
      ∧ (s.SetAbsTolerances1 t).GetNumIterations = s.GetNumIterations
      ∧ (s.SetAbsTolerances1 t).GetNumSetupCalls = s.GetNumSetupCalls
      ∧ (s.SetAbsTolerances1 t).GetNumSolveCalls = s.GetNumSolveCalls
      ∧ (s.SetAbsTolerances a b).abstolS = a
      ∧ (s.SetAbsTolerances a b).abstolL = b :=
  ⟨rfl, rfl, rfl, rfl, rfl, rfl, rfl, rfl, rfl, rfl⟩

/-- C15: the Newton iteration cap is stored without validation.  For every
integer `n` (zero and negative values included) `GetMaxiters()` after
`SetMaxiters(n)` is `n` converted to `double`, and no other member of the
implicit-iterative capability changes. -/
theorem SetMaxiters_stores_any_integer (s : ChImplicitIterativeTimestepper) (n : Int) :
    (s.SetMaxiters n).GetMaxiters = Double.fin (n : ℚ)
      ∧ s.SetMaxiters n =
          { maxiters := n, reltol := s.reltol, abstolS := s.abstolS, abstolL := s.abstolL,
            numiters := s.numiters, numsetups := s.numsetups, numsolves := s.numsolves } :=
  ⟨rfl, rfl⟩

/-! ## Advancing the time -/

/-- C14: for every concrete timestepper variant, every state with an attached
system and every `dt > 0`, `Advance(dt)` completes and `GetTime()` after the
call equals its value before the call plus `dt`. -/
theorem Advance_GetTime (variant : ChTimestepperVariant) (s : ChTimestepper) (dt : Double)
    (L_new : ChVectorDynamic) (sys : ChIntegrable)
    (hattached : s.GetIntegrable = some sys) (hdt : 0 < dt) :
    ∃ s2 : ChTimestepper, ChTimestepper.Advance variant s dt L_new = some s2
      ∧ s2.GetTime = s.GetTime + dt := by
  have hsome : s.integrable.isSome = true := by
    have h : s.integrable = some sys := hattached
    rw [h]
    rfl
  refine ⟨{ s with T := s.T + dt, L := L_new }, ?_, rfl⟩
  unfold ChTimestepper.Advance
  rw [if_pos ⟨hsome, hdt⟩]

/-- C14 at a concrete input: a Newmark step of `dt = 1/100` from `T = 0` on a
system with 7 position and 6 velocity coordinates. -/
theorem Advance_GetTime_witness :
    ∃ s2 : ChTimestepper,
      ChTimestepper.Advance ChTimestepperVariant.Newmark
          (ChTimestepper.ctor (some { ncoords_x := 7, ncoords_v := 6 })) 0.01
          { elems := [] } = some s2
        ∧ s2.GetTime
            = (ChTimestepper.ctor (some { ncoords_x := 7, ncoords_v := 6 })).GetTime + 0.01 :=
  Advance_GetTime ChTimestepperVariant.Newmark
    (ChTimestepper.ctor (some { ncoords_x := 7, ncoords_v := 6 })) 0.01 { elems := [] }
    { ncoords_x := 7, ncoords_v := 6 } rfl
    (by
      simp only [Double.lt_def, Double.lt, Double.ofNat_eq, Double.ofScientific_eq]
      norm_num)

end chrono
